import Mathlib

/-!
Verification development for the resume-parsing engine
(`app/utils/resume_parser.py` of ColdApproach-AI).

The Python source is shallowly embedded: strings are Lean `String`s
(sequences of unicode codepoints, matching Python `str` indexing/length),
the handful of regular expressions used by the source are given an
executable backtracking matcher with Python `re.search` semantics
(leftmost match position, alternatives in order, greedy repetition),
dictionaries are insertion-ordered association lists (Python 3.7+ dict
semantics), and every function is translated line by line from the source.
ASCII case/character-class semantics are used throughout (the inputs the
source manipulates are ASCII apart from en/em dashes, which are modelled
exactly).
-/

namespace ResumeParser

/-! ## Python string primitives -/

/-- Python whitespace for `str.strip()` / regex `\s` (ASCII part). -/
def pyWs (c : Char) : Bool :=
  c = ' ' || c = '\t' || c = '\n' || c = '\r' || c = '\x0b' || c = '\x0c'

/-- `str.strip()`. -/
def pyStrip (s : String) : String :=
  ((((s.toList.dropWhile pyWs).reverse).dropWhile pyWs).reverse).asString

/-- Strip all copies of one character from the left, Python `lstrip(c)`. -/
def lstripChar (c : Char) (s : String) : String :=
  (s.toList.dropWhile (fun d => d = c)).asString

/-- Strip all copies of one character from the right, Python `rstrip(c)`. -/
def rstripChar (c : Char) (s : String) : String :=
  (((s.toList.reverse).dropWhile (fun d => d = c)).reverse).asString

/-- Strip all copies of one character from both ends, Python `strip(c)`. -/
def stripChar (c : Char) (s : String) : String :=
  rstripChar c (lstripChar c s)

/-- Substring containment on character lists (Python `needle in hay`). -/
def listIn : List Char → List Char → Bool
  | needle, hay =>
    if needle.isPrefixOf hay then true
    else
      match hay with
      | [] => false
      | _ :: t => listIn needle t

/-- Python `needle in hay` for strings. -/
def strIn (needle hay : String) : Bool :=
  listIn needle.toList hay.toList

/-- Cut a character list at every character satisfying `p` (separator
dropped, empty pieces kept) — the list core of Python `str.split(sep)`. -/
def splitByP (p : Char → Bool) : List Char → List (List Char)
  | [] => [[]]
  | c :: rest =>
    let r := splitByP p rest
    if p c then [] :: r
    else
      match r with
      | h :: t => (c :: h) :: t
      | [] => [[c]]

/-- Python `s.split(sep)` for a one-character separator (all the source's
`split` calls use one-character separators). -/
def pySplitOn (sep : Char) (s : String) : List String :=
  (splitByP (fun c => c = sep) s.toList).map List.asString

/-- Python `text.split('\n')`. -/
def splitLines (s : String) : List String :=
  pySplitOn '\n' s

/-- Python `str.split()` (split on whitespace runs, no empty pieces). -/
def pyWords (s : String) : List String :=
  ((splitByP pyWs s.toList).map List.asString).filter (fun w => w ≠ "")

/-- Python `str.lower()` (ASCII). -/
def strLower (s : String) : String :=
  (s.toList.map Char.toLower).asString

/-- Python `s.startswith(pre)`. -/
def strStartsWith (s pre : String) : Bool :=
  pre.toList.isPrefixOf s.toList

/-- Python `sep.join(pieces)`. -/
def joinSep (sep : String) : List String → String
  | [] => ""
  | [x] => x
  | x :: y :: t => x ++ sep ++ joinSep sep (y :: t)

/-- Python `s[:n]`. -/
def strTake (s : String) (n : Nat) : String :=
  (s.toList.take n).asString

/-! ## Regular-expression engine

A small executable matcher covering exactly the constructs used by the
source's patterns: character classes, concatenation, alternation, counted
greedy repetition over a character class, and the word-boundary assertion
`\b`.  `reMatch` returns every way of matching a prefix of the input, in
Python's backtracking preference order (greedy repetition longest-first,
alternatives left-first); `reFind` implements `re.search`: the leftmost
start position wins, and at that position the first result in preference
order gives the match end (`.start()`/`.end()`/`.group()`). -/

inductive RE where
  | eps : RE
  | cls : (Char → Bool) → RE
  | seq : RE → RE → RE
  | alt : RE → RE → RE
  | rep : (Char → Bool) → Nat → Option Nat → RE
  | bnd : RE

/-- Regex word character (`\w`), deciding `\b`. -/
def wordChar (c : Char) : Bool := c.isAlphanum || c = '_'

def wordB : Option Char → Bool
  | some c => wordChar c
  | none => false

/-- All stop points of a greedy class repetition, shortest first:
element `k` is the state after consuming `k` class characters
(bounded by the optional maximum). -/
def repStops (p : Char → Bool) : Option Nat → Option Char → List Char →
    List (Option Char × List Char)
  | hi, pv, s =>
    match s with
    | [] => [(pv, [])]
    | c :: rest =>
      if p c then
        match hi with
        | some 0 => [(pv, s)]
        | some (n + 1) => (pv, s) :: repStops p (some n) (some c) rest
        | none => (pv, s) :: repStops p none (some c) rest
      else [(pv, s)]

/-- All prefix matches of `r` against `s` (with `pv` the character just
before the current position), as `(last consumed char, remainder)` pairs
in backtracking preference order. -/
def reMatch : RE → Option Char → List Char → List (Option Char × List Char)
  | .eps, pv, s => [(pv, s)]
  | .cls p, _, s =>
    match s with
    | c :: rest => if p c then [(some c, rest)] else []
    | [] => []
  | .seq a b, pv, s => (reMatch a pv s).flatMap (fun pr => reMatch b pr.1 pr.2)
  | .alt a b, pv, s => reMatch a pv s ++ reMatch b pv s
  | .rep p lo hi, pv, s => ((repStops p hi pv s).drop lo).reverse
  | .bnd, pv, s => if wordB pv != wordB s.head? then [(pv, s)] else []

/-- `re.search` on a character list: leftmost match, returned as
`(start, end)` offsets (codepoint indices). -/
def reFindAux (r : RE) : Option Char → Nat → List Char → Option (Nat × Nat)
  | pv, i, s =>
    match reMatch r pv s with
    | (_, rem) :: _ => some (i, i + (s.length - rem.length))
    | [] =>
      match s with
      | [] => none
      | c :: rest => reFindAux r (some c) (i + 1) rest

/-- `re.search(pattern, text)`: `some (start, end)` of the match, else `none`. -/
def reFindStr (r : RE) (s : String) : Option (Nat × Nat) :=
  reFindAux r none 0 s.toList

/-- `match.group()`: the slice of `s` between the returned offsets. -/
def reGroup (s : String) (pr : Nat × Nat) : String :=
  ((s.toList.drop pr.1).take (pr.2 - pr.1)).asString

/-- Single literal character. -/
def rchar (c : Char) : RE := .cls (fun d => d = c)

/-- Single literal character, case-insensitive (`re.IGNORECASE`). -/
def rcharCI (c : Char) : RE := .cls (fun d => d.toLower = c.toLower)

/-- Literal string. -/
def rstr (w : String) : RE :=
  w.toList.foldr (fun c r => .seq (rchar c) r) .eps

/-- Literal string, case-insensitive. -/
def rstrCI (w : String) : RE :=
  w.toList.foldr (fun c r => .seq (rcharCI c) r) .eps

/-! ## The source's regular expressions -/

def isDigitC (c : Char) : Bool := c.isDigit

/-- `[a-z]` under `re.IGNORECASE`: any ASCII letter. -/
def azCI (c : Char) : Bool := c.isAlpha

/-- `[-–—]`: hyphen, en dash, em dash. -/
def dashC : RE := .cls (fun c => c = '-' || c = '–' || c = '—')

def wsStar : RE := .rep pyWs 0 none

def wsPlus : RE := .rep pyWs 1 none

/-- `\d{4}`. -/
def d4 : RE := .rep isDigitC 4 (some 4)

/-- `[a-z]*` (ignore-case). -/
def azStar : RE := .rep azCI 0 none

/-- `(Jan|Feb|Mar|Apr|May|Jun|Jul|Aug|Sep|Oct|Nov|Dec)` (ignore-case). -/
def monthAlt : RE :=
  ["Jan", "Feb", "Mar", "Apr", "May", "Jun", "Jul", "Aug", "Sep", "Oct",
    "Nov"].foldr (fun w r => .alt (rstrCI w) r) (rstrCI "Dec")

/-- `\d{4}\s*[-–—]` (the second alternative of the experience split
pattern, and the head of the first `_is_date_range` pattern). -/
def yearDash : RE := .seq d4 (.seq wsStar dashC)

/-- `(Jan|…|Dec)[a-z]*\s+\d{4}` (the third `_is_date_range` pattern, and
the first alternative of the experience split pattern). -/
def monthYear : RE := .seq monthAlt (.seq azStar (.seq wsPlus d4))

/-- `(Present|Current|\d{4})`. -/
def end1 : RE := .alt (rstrCI "Present") (.alt (rstrCI "Current") d4)

/-- `_is_date_range` pattern 1: `\d{4}\s*[-–—]\s*(Present|Current|\d{4})`. -/
def datePat1 : RE := .seq yearDash (.seq wsStar end1)

/-- `(Present|Current|(Jan|…|Dec)[a-z]*\s+\d{4})`. -/
def end2 : RE := .alt (rstrCI "Present") (.alt (rstrCI "Current") monthYear)

/-- `_is_date_range` pattern 2:
`(Jan|…|Dec)[a-z]*\s+\d{4}\s*[-–—]\s*(Present|Current|(Jan|…|Dec)[a-z]*\s+\d{4})`. -/
def datePat2 : RE := .seq monthYear (.seq wsStar (.seq dashC (.seq wsStar end2)))

/-- `_is_date_range` pattern 3: `(Jan|…|Dec)[a-z]*\s+\d{4}`. -/
def datePat3 : RE := monthYear

/-- `_is_date_range`: any of the three patterns matches somewhere
(all searched with `re.IGNORECASE`). -/
def is_date_range (s : String) : Bool :=
  [datePat1, datePat2, datePat3].any (fun p => (reFindStr p s).isSome)

/-- `_extract_experience`'s title/duration split pattern:
`((Jan|…|Dec)[a-z]*\s+\d{4}|\d{4}\s*[-–—])` (ignore-case). -/
def expDatePat : RE := .alt monthYear yearDash

/-- `(May|Present|Current|\d{4})`. -/
def endE : RE :=
  .alt (rstrCI "May") (.alt (rstrCI "Present") (.alt (rstrCI "Current") d4))

/-- `_extract_education`'s school/duration split pattern:
`((Jan|…|Dec)[a-z]*\s+\d{4}\s*[-–—]\s*(May|Present|Current|\d{4}))` (ignore-case). -/
def eduDatePat : RE := .seq monthYear (.seq wsStar (.seq dashC (.seq wsStar endE)))

/-- `[A-Za-z0-9._%+-]` (email local part). -/
def emailLocalC (c : Char) : Bool :=
  c.isAlphanum || c = '.' || c = '_' || c = '%' || c = '+' || c = '-'

/-- `[A-Za-z0-9.-]` (email domain). -/
def emailDomC (c : Char) : Bool := c.isAlphanum || c = '.' || c = '-'

/-- `[A-Z|a-z]` (email TLD class; the source's class literally contains `|`). -/
def emailTldC (c : Char) : Bool := c.isAlpha || c = '|'

/-- `\b[A-Za-z0-9._%+-]+@[A-Za-z0-9.-]+\.[A-Z|a-z]{2,}\b`. -/
def emailPat : RE :=
  .seq .bnd (.seq (.rep emailLocalC 1 none) (.seq (rchar '@')
    (.seq (.rep emailDomC 1 none) (.seq (rchar '.')
      (.seq (.rep emailTldC 2 none) .bnd)))))

/-- `[a-zA-Z0-9-]`. -/
def handleC (c : Char) : Bool := c.isAlphanum || c = '-'

/-- `linkedin\.com/in/[a-zA-Z0-9-]+`. -/
def linkedinPat : RE := .seq (rstr "linkedin.com/in/") (.rep handleC 1 none)

/-- `github\.com/[a-zA-Z0-9-]+`. -/
def githubPat : RE := .seq (rstr "github.com/") (.rep handleC 1 none)

/-- `[-.\s]`. -/
def sepC (c : Char) : Bool := c = '-' || c = '.' || pyWs c

/-- Phone pattern 1: `\(?\d{3}\)?[-.\s]?\d{3}[-.\s]?\d{4}`. -/
def phonePat1 : RE :=
  .seq (.rep (fun c => c = '(') 0 (some 1))
    (.seq (.rep isDigitC 3 (some 3))
      (.seq (.rep (fun c => c = ')') 0 (some 1))
        (.seq (.rep sepC 0 (some 1))
          (.seq (.rep isDigitC 3 (some 3))
            (.seq (.rep sepC 0 (some 1)) (.rep isDigitC 4 (some 4)))))))

/-- Phone pattern 2: `\+\d{1,3}[-.\s]?\(?\d{3}\)?[-.\s]?\d{3}[-.\s]?\d{4}`. -/
def phonePat2 : RE :=
  .seq (rchar '+')
    (.seq (.rep isDigitC 1 (some 3))
      (.seq (.rep sepC 0 (some 1))
        (.seq (.rep (fun c => c = '(') 0 (some 1))
          (.seq (.rep isDigitC 3 (some 3))
            (.seq (.rep (fun c => c = ')') 0 (some 1))
              (.seq (.rep sepC 0 (some 1))
                (.seq (.rep isDigitC 3 (some 3))
                  (.seq (.rep sepC 0 (some 1)) (.rep isDigitC 4 (some 4))))))))))

/-! ## Line classifier utilities -/

/-- `_is_email`: `'@' in text and '.' in text.split('@')[1] if '@' in text
else False`.  Note `split('@')[1]` is the segment between the first and
second `@`. -/
def is_email (t : String) : Bool :=
  if strIn "@" t then
    match (pySplitOn '@' t).get? 1 with
    | some seg => strIn "." seg
    | none => false
  else false

/-- `_is_url`. -/
def is_url (t : String) : Bool :=
  strStartsWith t "http://" || strStartsWith t "https://" ||
    strStartsWith t "www." || strStartsWith t "linkedin.com" ||
    strStartsWith t "github.com"

/-! ## Document validity classifier (`is_resume`) -/

def resume_sections : List String :=
  ["education", "experience", "work experience", "employment",
    "skills", "technical skills", "qualifications",
    "summary", "objective", "about", "profile"]

def resume_keywords : List String :=
  ["university", "college", "degree", "bachelor", "master",
    "intern", "engineer", "developer", "software", "programming",
    "gpa", "graduated", "certification", "project"]

/-- `sum(1 for k in ks if k in text_lower)`. -/
def countIn (ks : List String) (lower : String) : Nat :=
  (ks.filter (fun k => strIn k lower)).length

/-- `is_resume`. -/
def is_resume (resume_text : String) : Bool :=
  if resume_text = "" || (pyStrip resume_text).length < 50 then false
  else
    let lower := strLower resume_text
    decide (2 ≤ countIn resume_sections lower) ||
      decide (3 ≤ countIn resume_keywords lower)

/-! ## Section segmenter (`_parse_sections`) -/

/-- A section's stored value: every flushed section is a joined string;
the pre-section `'header'` entry is (and stays) a list of lines. -/
inductive SVal where
  | str : String → SVal
  | lst : List String → SVal
deriving DecidableEq

/-- Insertion-ordered dictionary, as Python's `dict`. -/
abbrev Sections := List (String × SVal)

/-- `sections[k] = v`: replace in place if the key exists, else append. -/
def dictInsert (d : Sections) (k : String) (v : SVal) : Sections :=
  if d.any (fun e => e.1 = k) then
    d.map (fun e => if e.1 = k then (k, v) else e)
  else d ++ [(k, v)]

/-- `sections.get(k)` (first, and only, binding of `k`). -/
def dictGet (d : Sections) (k : String) : Option SVal :=
  (d.find? (fun e => e.1 = k)).map (fun e => e.2)

/-- The pre-first-header branch: create `sections['header'] = []` when
absent, then append the stripped line (the `isinstance` check only
succeeds on the list value). -/
def headerAppend (d : Sections) (l : String) : Sections :=
  match dictGet d "header" with
  | some (SVal.lst xs) =>
    d.map (fun e => if e.1 = "header" then ("header", SVal.lst (xs ++ [l])) else e)
  | some (SVal.str _) => d
  | none => d ++ [("header", SVal.lst [l])]

/-- The segmenter's priority-ordered keyword table (source order). -/
def section_keywords : List String :=
  ["work experience", "technical skills", "work history",
    "education", "experience", "employment",
    "skills", "technical", "technologies", "competencies",
    "summary", "about", "profile", "objective", "projects", "achievements",
    "certifications", "publications", "awards"]

/-- One keyword's header test: exact match, prefix followed by space or
colon, or (for keywords longer than 5 characters) substring containment. -/
def headerMatch (lineLower kw : String) : Bool :=
  lineLower = kw || strStartsWith lineLower (kw ++ " ") ||
    strStartsWith lineLower (kw ++ ":") ||
    (decide (5 < kw.length) && strIn kw lineLower)

/-- The first keyword (in priority order) matching a stripped line, if any.
The matched keyword is the canonical section key (`keyword.lower()` is the
keyword itself: the table is lower-case). -/
def headerOf (stripped : String) : Option String :=
  section_keywords.find? (headerMatch (strLower stripped))

/-- The segmenter loop over lines, carrying
(current section, accumulated stripped lines, sections so far). -/
def parseLoop : List String → Option String → List String → Sections → Sections
  | [], cur, acc, d =>
    match cur with
    | some cs => dictInsert d cs (SVal.str (joinSep "\n" acc))
    | none => d
  | line :: rest, cur, acc, d =>
    let st := pyStrip line
    if st = "" then parseLoop rest cur acc d
    else
      match headerOf st with
      | some kw =>
        let d' :=
          match cur with
          | some cs => dictInsert d cs (SVal.str (joinSep "\n" acc))
          | none => d
        parseLoop rest (some kw) [] d'
      | none =>
        match cur with
        | some _ => parseLoop rest cur (acc ++ [st]) d
        | none => parseLoop rest cur acc (headerAppend d st)

/-- `_parse_sections` on a pre-split line list. -/
def parseLines (ls : List String) : Sections :=
  parseLoop ls none [] []

/-- `_parse_sections`. -/
def parse_sections (resume_text : String) : Sections :=
  parseLines (splitLines resume_text)

/-- `_find_section`: first keyword (in the given order) contained in a
section name, scanning sections in insertion order. -/
def find_section : Sections → List String → Option SVal
  | _, [] => none
  | d, kw :: rest =>
    match d.find? (fun e => strIn (strLower kw) (strLower e.1)) with
    | some e => some e.2
    | none => find_section d rest

/-! ## Skills extractor (`_extract_skills`) -/

/-- `line.split(':', 1)[1]` when a colon is present. -/
def afterFirstColon (s : String) : Option String :=
  let cs := s.toList
  if cs.contains ':' then
    some (((cs.dropWhile (fun c => c ≠ ':')).drop 1).asString)
  else none

/-- Cut a character list at every `•`/`-` (delimiter dropped). -/
def splitAtBullets : List Char → List (List Char)
  | [] => [[]]
  | c :: rest =>
    let r := splitAtBullets rest
    if c = '•' || c = '-' then [] :: r
    else
      match r with
      | h :: t => (c :: h) :: t
      | [] => [[c]]

/-- `re.split(r'[•\-]\s*', line)`: each match consumes one bullet/dash and
the whitespace run right after it (whitespace and bullet characters are
disjoint, so the greedy `\s*` takes exactly that run), hence the pieces
are the segments between bullet characters, with every piece after the
first stripped of its leading whitespace. -/
def splitBullets (line : String) : List String :=
  match splitAtBullets line.toList with
  | h :: t => h.asString :: t.map (fun p => (p.dropWhile pyWs).asString)
  | [] => []

/-- Items one line of the skills section contributes (before cleanup). -/
def collectSkillsLine (line : String) : List String :=
  let l := pyStrip line
  if l = "" || strStartsWith l "•" || strStartsWith l "-" then []
  else if strIn ":" l then
    match afterFirstColon l with
    | some rawPart =>
      let sp := pyStrip rawPart
      if strIn "," sp then (pySplitOn ',' sp).map pyStrip
      else if strIn "|" sp then (pySplitOn '|' sp).map pyStrip
      else if sp ≠ "" && decide (sp.length < 50) then [sp] else []
    | none => []
  else if strIn "," l then (pySplitOn ',' l).map pyStrip
  else if strIn "|" l then (pySplitOn '|' l).map pyStrip
  else if strIn "•" l || strIn "-" l then
    ((splitBullets l).map pyStrip).filter (fun x => x ≠ "")
  else if l ≠ "" && decide (l.length < 50) then [l] else []

/-- `skill.strip().strip('•').strip('-').strip()`. -/
def cleanSkill (s : String) : String :=
  pyStrip (stripChar '-' (stripChar '•' (pyStrip s)))

def skillStopwords : List String := ["and", "or", "the", "a", "an"]

/-- Cleanup/dedup pass over collected skills, carrying the `seen` set of
lower-cased retained skills. -/
def dedupSkills : List String → List String → List String
  | [], _ => []
  | sk :: rest, seen =>
    let c := cleanSkill sk
    if c ≠ "" && decide (1 < c.length) && !seen.contains (strLower c) then
      if !skillStopwords.contains (strLower c) then
        c :: dedupSkills rest (strLower c :: seen)
      else dedupSkills rest seen
    else dedupSkills rest seen

/-- `_extract_skills`. -/
def extract_skills (skills_text : String) : List String :=
  (dedupSkills ((splitLines skills_text).flatMap collectSkillsLine) []).take 50

/-! ## Experience extractor (`_extract_experience`) -/

structure ExpEntry where
  title : Option String := none
  duration : Option String := none
  company : Option String := none
  location : Option String := none
  description : List String := []
deriving DecidableEq

/-- Flush the open entry (if it has a title or company), first folding any
pending bullets into its description. -/
def flushExp (res : List ExpEntry) (cur : ExpEntry) (bullets : List String) :
    List ExpEntry :=
  if cur.title.isSome || cur.company.isSome then
    res ++ [if bullets.isEmpty then cur
            else { cur with description := cur.description ++ bullets }]
  else res

/-- Match `\s+([A-Z][a-z]+,\s*[A-Z]{2})` so that it ends exactly at the end
of the line, returning the capture group.  All pieces are
deterministic (each greedy class run is followed by a character outside
the class), mirroring the backtracking regex. -/
def companyTailAt (s : List Char) : Option (List Char) :=
  if (s.takeWhile pyWs).isEmpty then none
  else
    match s.dropWhile pyWs with
    | c :: r2 =>
      if c.isUpper then
        let low := r2.takeWhile Char.isLower
        if low.isEmpty then none
        else
          match r2.dropWhile Char.isLower with
          | ',' :: r3 =>
            match r3.dropWhile pyWs with
            | a :: b :: [] =>
              if a.isUpper && b.isUpper then
                some (c :: (low ++ ',' :: (r3.takeWhile pyWs ++ [a, b])))
              else none
            | _ => none
          | _ => none
      else none
    | [] => none

/-- Leftmost position where `companyTailAt` matches (i.e. the unique
`re.split(r'\s+([A-Z][a-z]+,\s*[A-Z]{2})$', line)` cut). -/
def companySplitGo : List Char → Nat → Option (Nat × String)
  | s, i =>
    match companyTailAt s with
    | some g => some (i, g.asString)
    | none =>
      match s with
      | [] => none
      | _ :: rest => companySplitGo rest (i + 1)

/-- The company line parse: `(company, optional location)`. -/
def companySplit (s : String) : String × Option String :=
  match companySplitGo s.toList 0 with
  | some (i, g) => (pyStrip ((s.toList.take i).asString), some (pyStrip g))
  | none => (s, none)

/-- The experience loop, carrying
(current entry, pending bullets, expecting-company flag, results). -/
def expLoop : List String → ExpEntry → List String → Bool → List ExpEntry →
    List ExpEntry
  | [], cur, bullets, _, res => flushExp res cur bullets
  | line :: rest, cur, bullets, expecting, res =>
    let l := pyStrip line
    if l = "" then expLoop rest cur bullets expecting res
    else if strStartsWith l "•" || strStartsWith l "-" then
      let b := pyStrip (((l.toList.dropWhile (fun c => c = '•')).dropWhile
        (fun c => c = '-')).asString)
      if b ≠ "" then expLoop rest cur (bullets ++ [b]) expecting res
      else expLoop rest cur bullets expecting res
    else if is_date_range l then
      match reFindStr expDatePat l with
      | some (st, _) =>
        expLoop rest
          { title := some (pyStrip ((l.toList.take st).asString)),
            duration := some (pyStrip ((l.toList.drop st).asString)) }
          [] true (flushExp res cur bullets)
      | none => expLoop rest cur bullets expecting res
    else if expecting then
      let cur' :=
        match companySplit l with
        | (comp, some loc) => { cur with company := some comp, location := some loc }
        | (comp, none) => { cur with company := some comp }
      expLoop rest cur' bullets false res
    else expLoop rest cur bullets expecting res

/-- `_extract_experience`. -/
def extract_experience (exp_text : String) : List ExpEntry :=
  (expLoop (splitLines exp_text) {} [] false []).take 10

/-! ## Education extractor (`_extract_education`) -/

structure EduEntry where
  school : Option String := none
  duration : Option String := none
  degree : Option String := none
  gpa : Option String := none
  location : Option String := none
deriving DecidableEq

def instWordsList : List String := ["university", "college", "school", "institute"]

/-- `[\d.]`. -/
def gpaDigC (c : Char) : Bool := c.isDigit || c = '.'

/-- Match `\(GPA:\s*([\d.]+/[\d.]+)\)` (ignore-case) at the head of `s`:
`some (consumed length, captured ratio)`.  Each greedy piece is followed
by a character outside its class, so maximal munch is exact. -/
def gpaAt (s : List Char) : Option (Nat × String) :=
  match s with
  | '(' :: g :: p :: a :: ':' :: r2 =>
    if g.toLower = 'g' && p.toLower = 'p' && a.toLower = 'a' then
      let r3 := r2.dropWhile pyWs
      let n1 := r3.takeWhile gpaDigC
      if n1.isEmpty then none
      else
        match r3.dropWhile gpaDigC with
        | '/' :: r4 =>
          let n2 := r4.takeWhile gpaDigC
          if n2.isEmpty then none
          else
            match r4.dropWhile gpaDigC with
            | ')' :: r5 => some (s.length - r5.length, (n1 ++ '/' :: n2).asString)
            | _ => none
        | _ => none
    else none
  | _ => none

/-- `re.search` for the GPA pattern: `some (start, end, group 1)`. -/
def gpaFindGo : List Char → Nat → Option (Nat × Nat × String)
  | s, i =>
    match gpaAt s with
    | some (len, g) => some (i, i + len, g)
    | none =>
      match s with
      | [] => none
      | _ :: rest => gpaFindGo rest (i + 1)

def gpaFind (s : String) : Option (Nat × Nat × String) :=
  gpaFindGo s.toList 0

/-- The education loop, carrying (current entry, results). -/
def eduLoop : List String → EduEntry → List EduEntry → List EduEntry
  | [], cur, res => if cur.school.isSome then res ++ [cur] else res
  | line :: rest, cur, res =>
    let l := pyStrip line
    if l = "" then eduLoop rest cur res
    else if strStartsWith l "•" || strStartsWith l "-" then eduLoop rest cur res
    else if instWordsList.any (fun w => strIn w (strLower l)) then
      let res' := if cur.school.isSome then res ++ [cur] else res
      let cur' : EduEntry := if cur.school.isSome then {} else cur
      match reFindStr eduDatePat l with
      | some (st, _) =>
        eduLoop rest
          { cur' with school := some (pyStrip ((l.toList.take st).asString)),
                      duration := some (pyStrip ((l.toList.drop st).asString)) }
          res'
      | none => eduLoop rest { cur' with school := some l } res'
    else if strIn "gpa" (strLower l) then
      match gpaFind l with
      | some (st, en, g) =>
        let degreePart := pyStrip (rstripChar ',' (pyStrip ((l.toList.take st).asString)))
        let locPart := pyStrip ((l.toList.drop en).asString)
        let locPart2 :=
          pyStrip ((locPart.toList.dropWhile
            (fun c => c = '(' || c = ')' || pyWs c)).asString)
        let cur' := { cur with gpa := some g, degree := some degreePart }
        let cur'' := if locPart2 ≠ "" then { cur' with location := some locPart2 } else cur'
        eduLoop rest cur'' res
      | none => eduLoop rest cur res
    else if cur.degree.isNone && decide (10 < l.length) then
      eduLoop rest { cur with degree := some l } res
    else eduLoop rest cur res

/-- `_extract_education`. -/
def extract_education (edu_text : String) : List EduEntry :=
  (eduLoop (splitLines edu_text) {} []).take 5

/-! ## Summary extractor (`_extract_summary`) -/

/-- `_extract_summary`. -/
def extract_summary (summary_text : String) : String :=
  let cleaned :=
    ((splitLines summary_text).filter
      (fun l => pyStrip l ≠ "" && !strStartsWith (pyStrip l) "•")).map pyStrip
  let summary := joinSep " " cleaned
  if decide (500 < summary.length) then strTake summary 500 ++ "..." else summary

/-! ## Contact fields and profile assembly (`format_resume`) -/

/-- The name heuristic on one stripped candidate line: 2–4 words, every
word starting with an uppercase letter. -/
def nameShape (l : String) : Bool :=
  let ws := pyWords l
  decide (2 ≤ ws.length) && decide (ws.length ≤ 4) &&
    ws.all (fun w =>
      match w.toList with
      | c :: _ => c.isUpper
      | [] => false)

/-- Full acceptance test for a stripped name candidate line. -/
def nameQual (l : String) : Bool :=
  l ≠ "" && !is_email l && !is_url l && !is_date_range l && nameShape l

/-- The name scan over `lines[:5]`: first line accepted by `nameQual`
(a line failing only the shape test does not stop the scan). -/
def nameLoop : List String → Option String
  | [] => none
  | l :: ls =>
    let s := pyStrip l
    if nameQual s then some s else nameLoop ls

structure Profile where
  name : Option String := none
  email : Option String := none
  phone : Option String := none
  linkedin : Option String := none
  github : Option String := none
  skills : List String := []
  experience : List ExpEntry := []
  education : List EduEntry := []
  summary : Option String := none
deriving DecidableEq

def skillsSectionKeys : List String :=
  ["skills", "technical skills", "technical", "technologies"]

def expSectionKeys : List String :=
  ["experience", "work experience", "employment", "work history"]

def eduSectionKeys : List String :=
  ["education", "academic", "qualifications"]

def summarySectionKeys : List String :=
  ["summary", "about", "profile", "objective"]

/-- `format_resume`.  The `SVal.lst` branches of the four section lookups
are unreachable (`find_section_not_lst` below: only the `'header'` entry
holds a list, and none of the four keyword groups matches it); the
guards `v ≠ ""` mirror Python's `if section:` truthiness checks. -/
def format_resume (resume_text : String) : Profile :=
  let lines := splitLines resume_text
  let sections := parse_sections resume_text
  { name := nameLoop (lines.take 5),
    email := (reFindStr emailPat resume_text).map (reGroup resume_text),
    linkedin := (reFindStr linkedinPat resume_text).map (reGroup resume_text),
    github := (reFindStr githubPat resume_text).map (reGroup resume_text),
    phone :=
      match reFindStr phonePat1 resume_text with
      | some pr => some (pyStrip (reGroup resume_text pr))
      | none =>
        match reFindStr phonePat2 resume_text with
        | some pr => some (pyStrip (reGroup resume_text pr))
        | none => none,
    skills :=
      match find_section sections skillsSectionKeys with
      | some (SVal.str v) => if v ≠ "" then extract_skills v else []
      | _ => [],
    experience :=
      match find_section sections expSectionKeys with
      | some (SVal.str v) => if v ≠ "" then extract_experience v else []
      | _ => [],
    education :=
      match find_section sections eduSectionKeys with
      | some (SVal.str v) => if v ≠ "" then extract_education v else []
      | _ => [],
    summary :=
      match find_section sections summarySectionKeys with
      | some (SVal.str v) => if v ≠ "" then some (extract_summary v) else none
      | _ => none }

/-- The route-level pipeline (`app/routes/resume_route.py`): classify,
then format on acceptance (`none` models the rejection response). -/
def pipeline (resume_text : String) : Option Profile :=
  if is_resume resume_text then some (format_resume resume_text) else none

/-- Two sequential calls of the pipeline on the same input. -/
def pipelineTwice (resume_text : String) : Option Profile × Option Profile :=
  (pipeline resume_text, pipeline resume_text)

/-- The stripped non-blank lines of a block, in order (what the segmenter
accumulates for a section whose raw lines are `bl`). -/
def blockClean (bl : List String) : List String :=
  (bl.map pyStrip).filter (fun l => l ≠ "")

/-- The section-map well-formedness invariant: only the `'header'` entry
can hold a raw line list; every flushed section is a joined string. -/
def OnlyHeaderLst (d : Sections) : Prop :=
  ∀ e ∈ d, ∀ xs, e.2 = SVal.lst xs → e.1 = "header"

/-- The joined summary body as §4.8 words it: all non-bullet, non-blank
lines of the section, concatenated with single spaces. -/
def specSummaryJoin (s : String) : String :=
  joinSep " "
    (((splitLines s).map pyStrip).filter (fun l => l ≠ "" && !strStartsWith l "•"))

/-! ## Helper lemmas -/

theorem reMatch_seq_ne {a b : RE} {pv : Option Char} {s : List Char}
    (h : reMatch (.seq a b) pv s ≠ []) : reMatch a pv s ≠ [] := by
  intro ha
  exact h (by simp [reMatch, ha])

theorem reMatch_alt_ne_left {a b : RE} {pv : Option Char} {s : List Char}
    (h : reMatch a pv s ≠ []) : reMatch (.alt a b) pv s ≠ [] := by
  simp only [reMatch]
  intro hc
  exact h (List.append_eq_nil.mp hc).1

theorem reMatch_alt_ne_right {a b : RE} {pv : Option Char} {s : List Char}
    (h : reMatch b pv s ≠ []) : reMatch (.alt a b) pv s ≠ [] := by
  simp only [reMatch]
  intro hc
  exact h (List.append_eq_nil.mp hc).2

/-- If `r'` matches wherever `r` does, `re.search` for `r'` succeeds
wherever `re.search` for `r` does. -/
theorem reFindAux_mono {r r' : RE}
    (h : ∀ pv s, reMatch r pv s ≠ [] → reMatch r' pv s ≠ []) :
    ∀ pv i s, (reFindAux r pv i s).isSome → (reFindAux r' pv i s).isSome := by
  intro pv i s
  induction s generalizing pv i with
  | nil =>
    intro hs
    rcases hm : reMatch r pv [] with _ | ⟨pr, rest⟩
    · rw [reFindAux, hm] at hs
      simp at hs
    · have h' := h pv [] (by rw [hm]; simp)
      rcases hm' : reMatch r' pv [] with _ | _
      · exact absurd hm' h'
      · rw [reFindAux, hm']
        rfl
  | cons c rest ih =>
    intro hs
    rcases hm' : reMatch r' pv (c :: rest) with _ | _
    · rcases hm : reMatch r pv (c :: rest) with _ | _
      · rw [reFindAux, hm] at hs
        rw [reFindAux, hm']
        exact ih (some c) (i + 1) hs
      · exact absurd hm' (h pv (c :: rest) (by rw [hm]; simp))
    · rw [reFindAux, hm']
      rfl

theorem reMatch_datePat1_exp {pv : Option Char} {s : List Char}
    (h : reMatch datePat1 pv s ≠ []) : reMatch expDatePat pv s ≠ [] :=
  reMatch_alt_ne_right (reMatch_seq_ne h)

theorem reMatch_datePat2_exp {pv : Option Char} {s : List Char}
    (h : reMatch datePat2 pv s ≠ []) : reMatch expDatePat pv s ≠ [] :=
  reMatch_alt_ne_left (reMatch_seq_ne h)

theorem reMatch_datePat3_exp {pv : Option Char} {s : List Char}
    (h : reMatch datePat3 pv s ≠ []) : reMatch expDatePat pv s ≠ [] :=
  reMatch_alt_ne_left h

theorem nameLoop_eq_find (ls : List String) :
    nameLoop ls = (ls.map pyStrip).find? nameQual := by
  induction ls with
  | nil => rfl
  | cons l t ih =>
    rw [nameLoop, List.map_cons, List.find?]
    rcases hq : nameQual (pyStrip l) with _ | _ <;> simp [hq, ih]

theorem extract_skills_length_le (v : String) :
    (extract_skills v).length ≤ 50 := by
  rw [extract_skills, List.length_take]
  exact min_le_left 50 _

theorem extract_experience_length_le (v : String) :
    (extract_experience v).length ≤ 10 := by
  rw [extract_experience, List.length_take]
  exact min_le_left 10 _

theorem extract_education_length_le (v : String) :
    (extract_education v).length ≤ 5 := by
  rw [extract_education, List.length_take]
  exact min_le_left 5 _

/-! ## Claim theorems -/

/-- **C4** (amended): whenever the section map has an entry under the
exact key `skills`, the skills lookup succeeds — but it returns the
content of the *first section in insertion (document) order whose key
contains* `skills` as a substring (so an earlier `technical skills`
section wins over the exact `skills` entry), not necessarily the exact
entry's content. -/
theorem c4_skills_lookup (d : Sections) (h : ∃ v, dictGet d "skills" = some v) :
    find_section d skillsSectionKeys =
      (d.find? (fun e => strIn (strLower "skills") (strLower e.1))).map
        (fun e => e.2) := by
  obtain ⟨v, hv⟩ := h
  rw [dictGet] at hv
  rcases hg : d.find? (fun e => e.1 = "skills") with _ | e0
  · rw [hg] at hv
    simp at hv
  · have he0 : e0 ∈ d := List.mem_of_find?_eq_some hg
    have hk0 := List.find?_some hg
    have hk : e0.1 = "skills" := of_decide_eq_true hk0
    rw [skillsSectionKeys, find_section]
    rcases hf : d.find? (fun e => strIn (strLower "skills") (strLower e.1)) with _ | e
    · have hnone := List.find?_eq_none.mp hf e0 he0
      rw [hk] at hnone
      exact absurd (by decide) hnone
    · rw [hf]
      rfl

/-- **C4 witness**: `c4_skills_lookup` on a map holding a
`technical skills` section (content `"A"`) before the exact `skills`
section (content `"B"`): the lookup feeds `"A"`. -/
theorem c4_skills_lookup_witness :
    find_section [("technical skills", SVal.str "A"), ("skills", SVal.str "B")]
      skillsSectionKeys = some (SVal.str "A") := by
  have h := c4_skills_lookup
    [("technical skills", SVal.str "A"), ("skills", SVal.str "B")]
    ⟨SVal.str "B", by decide⟩
  exact h.trans (by decide)

/-- **C4 counterexample**: on the document
`"Technical Skills\nPython\nSkills\nJava"` the segmenter produces an exact
`skills` section with content `"Java"`, yet the skills extractor is fed
the earlier `technical skills` content and the profile's skills are
`["Python"]`, not `["Java"]`. -/
theorem c4_counterexample :
    (format_resume "Technical Skills\nPython\nSkills\nJava").skills =
        ["Python"] ∧
      dictGet (parse_sections "Technical Skills\nPython\nSkills\nJava")
          "skills" = some (SVal.str "Java") ∧
      extract_skills "Java" = ["Java"] ∧ (["Python"] : List String) ≠ ["Java"] :=
  ⟨by decide, by decide, by decide, by decide⟩

theorem onlyHeaderLst_dictInsert_str {d : Sections} {k s : String}
    (hd : OnlyHeaderLst d) : OnlyHeaderLst (dictInsert d k (SVal.str s)) := by
  intro e he xs hx
  rw [dictInsert] at he
  by_cases ha : d.any (fun e => e.1 = k)
  · rw [if_pos ha] at he
    obtain ⟨e0, he0, he'⟩ := List.mem_map.mp he
    by_cases hk : e0.1 = k
    · rw [if_pos hk] at he'
      rw [← he'] at hx
      exact absurd hx (by simp)
    · rw [if_neg hk] at he'
      subst he'
      exact hd e0 he0 xs hx
  · rw [if_neg ha] at he
    rcases List.mem_append.mp he with h1 | h1
    · exact hd e h1 xs hx
    · rw [List.mem_singleton.mp h1] at hx
      exact absurd hx (by simp)

theorem onlyHeaderLst_headerAppend {d : Sections} {l : String}
    (hd : OnlyHeaderLst d) : OnlyHeaderLst (headerAppend d l) := by
  intro e he xs hx
  rw [headerAppend] at he
  rcases hg : dictGet d "header" with _ | ⟨v | ys⟩ <;> rw [hg] at he
  · rcases List.mem_append.mp he with h1 | h1
    · exact hd e h1 xs hx
    · rw [List.mem_singleton.mp h1]
  · exact hd e he xs hx
  · obtain ⟨e0, he0, he'⟩ := List.mem_map.mp he
    by_cases hk : e0.1 = "header"
    · rw [if_pos hk] at he'
      rw [← he']
    · rw [if_neg hk] at he'
      subst he'
      exact hd e0 he0 xs hx

theorem parseLoop_onlyHeaderLst (ls : List String) :
    ∀ (cur : Option String) (acc : List String) (d : Sections),
      OnlyHeaderLst d → OnlyHeaderLst (parseLoop ls cur acc d) := by
  induction ls with
  | nil =>
    intro cur acc d hd
    rcases cur with _ | cs <;> rw [parseLoop]
    · exact hd
    · exact onlyHeaderLst_dictInsert_str hd
  | cons l t ih =>
    intro cur acc d hd
    rcases cur with _ | cs <;> rw [parseLoop] <;> by_cases h0 : pyStrip l = ""
    · simp only [if_pos h0]
      exact ih none acc d hd
    · simp only [if_neg h0]
      rcases hh : headerOf (pyStrip l) with _ | kw <;> simp only [hh]
      · exact ih _ _ _ (onlyHeaderLst_headerAppend hd)
      · exact ih _ _ _ hd
    · simp only [if_pos h0]
      exact ih (some cs) acc d hd
    · simp only [if_neg h0]
      rcases hh : headerOf (pyStrip l) with _ | kw <;> simp only [hh]
      · exact ih _ _ _ hd
      · exact ih _ _ _ (onlyHeaderLst_dictInsert_str hd)

theorem parse_sections_onlyHeaderLst (t : String) :
    OnlyHeaderLst (parse_sections t) := by
  apply parseLoop_onlyHeaderLst
  intro e he
  simp at he

/-- A successful `_find_section` lookup comes from some keyword contained
in some entry's name. -/
theorem find_section_mem {d : Sections} {kws : List String} {v : SVal}
    (h : find_section d kws = some v) :
    ∃ kw ∈ kws, ∃ e ∈ d,
      strIn (strLower kw) (strLower e.1) = true ∧ e.2 = v := by
  induction kws with
  | nil =>
    rw [find_section] at h
    exact absurd h (by simp)
  | cons kw rest ih =>
    rw [find_section] at h
    rcases hf : d.find? (fun e => strIn (strLower kw) (strLower e.1)) with _ | e <;>
      rw [hf] at h
    · obtain ⟨kw', h1, h2⟩ := ih h
      exact ⟨kw', List.mem_cons_of_mem _ h1, h2⟩
    · have hp := List.find?_some hf
      exact ⟨kw, List.mem_cons_self kw rest, e, List.mem_of_find?_eq_some hf,
        hp, Option.some.inj h⟩

/-- The `SVal.lst` branch of the section lookups in `format_resume` is
unreachable: no keyword of a group that avoids the substring `header`
can ever return the raw `'header'` line list. -/
theorem find_section_not_lst (t : String) (kws : List String)
    (hkw : ∀ kw ∈ kws, strIn (strLower kw) (strLower "header") = false) :
    ∀ xs, find_section (parse_sections t) kws ≠ some (SVal.lst xs) := by
  intro xs h
  obtain ⟨kw, hkwm, e, he, hp, hv⟩ := find_section_mem h
  have hh : e.1 = "header" := parse_sections_onlyHeaderLst t e he xs hv
  rw [hh] at hp
  rw [hkw kw hkwm] at hp
  exact Bool.false_ne_true hp

/-- **C6**: field extraction is total and never throws — `format_resume`
is a total function into `Profile` (every partial operation of the source
is reached only under the guards visible in the embedding, and the only
latently unsafe branch, feeding the raw `'header'` line list to a
sub-extractor, is unreachable), and each sub-extractor degrades to an
unset or empty field when nothing is extractable. -/
theorem c6_total_graceful (t : String) :
    ((find_section (parse_sections t) skillsSectionKeys = none →
        (format_resume t).skills = []) ∧
      (find_section (parse_sections t) expSectionKeys = none →
        (format_resume t).experience = []) ∧
      (find_section (parse_sections t) eduSectionKeys = none →
        (format_resume t).education = []) ∧
      (find_section (parse_sections t) summarySectionKeys = none →
        (format_resume t).summary = none)) ∧
    ((reFindStr emailPat t = none → (format_resume t).email = none) ∧
      (reFindStr linkedinPat t = none → (format_resume t).linkedin = none) ∧
      (reFindStr githubPat t = none → (format_resume t).github = none) ∧
      (reFindStr phonePat1 t = none → reFindStr phonePat2 t = none →
        (format_resume t).phone = none) ∧
      ((((splitLines t).take 5).map pyStrip).find? nameQual = none →
        (format_resume t).name = none)) ∧
    (∀ xs, find_section (parse_sections t) skillsSectionKeys ≠ some (SVal.lst xs) ∧
      find_section (parse_sections t) expSectionKeys ≠ some (SVal.lst xs) ∧
      find_section (parse_sections t) eduSectionKeys ≠ some (SVal.lst xs) ∧
      find_section (parse_sections t) summarySectionKeys ≠ some (SVal.lst xs)) := by
  refine ⟨⟨?_, ?_, ?_, ?_⟩, ⟨?_, ?_, ?_, ?_, ?_⟩, ?_⟩
  · intro h
    simp only [format_resume]
    rw [h]
  · intro h
    simp only [format_resume]
    rw [h]
  · intro h
    simp only [format_resume]
    rw [h]
  · intro h
    simp only [format_resume]
    rw [h]
  · intro h
    simp only [format_resume]
    rw [h]
    rfl
  · intro h
    simp only [format_resume]
    rw [h]
    rfl
  · intro h
    simp only [format_resume]
    rw [h]
    rfl
  · intro h1 h2
    simp only [format_resume]
    rw [h1, h2]
  · intro h
    simp only [format_resume]
    rw [nameLoop_eq_find, h]
  · intro xs
    exact ⟨find_section_not_lst t _ (by decide) xs,
      find_section_not_lst t _ (by decide) xs,
      find_section_not_lst t _ (by decide) xs,
      find_section_not_lst t _ (by decide) xs⟩

/-- **C6 witness**: `c6_total_graceful` applied at the empty input, where
every lookup misses: the profile is fully defaulted (and the call, being
a Lean function application, returns rather than raising). -/
theorem c6_total_graceful_witness :
    (format_resume "").skills = [] ∧ (format_resume "").experience = [] ∧
      (format_resume "").education = [] ∧ (format_resume "").summary = none ∧
      (format_resume "").email = none ∧ (format_resume "").linkedin = none ∧
      (format_resume "").github = none ∧ (format_resume "").phone = none ∧
      (format_resume "").name = none ∧
      find_section (parse_sections "") skillsSectionKeys ≠ some (SVal.lst []) :=
  ⟨(c6_total_graceful "").1.1 (by decide),
    (c6_total_graceful "").1.2.1 (by decide),
    (c6_total_graceful "").1.2.2.1 (by decide),
    (c6_total_graceful "").1.2.2.2 (by decide),
    (c6_total_graceful "").2.1.1 (by decide),
    (c6_total_graceful "").2.1.2.1 (by decide),
    (c6_total_graceful "").2.1.2.2.1 (by decide),
    (c6_total_graceful "").2.1.2.2.2.1 (by decide) (by decide),
    (c6_total_graceful "").2.1.2.2.2.2 (by decide),
    ((c6_total_graceful "").2.2 []).1⟩

/-- **C5**: the validity classifier returns `false` for every text whose
trimmed length is under 50 characters, and for longer text returns `true`
iff at least 2 section keywords or at least 3 domain keywords occur as
substrings of the lower-cased text. -/
theorem c5_classifier (s : String) :
    is_resume s =
      (decide (50 ≤ (pyStrip s).length) &&
        (decide (2 ≤ countIn resume_sections (strLower s)) ||
          decide (3 ≤ countIn resume_keywords (strLower s)))) := by
  rw [is_resume]
  by_cases h1 : s = ""
  · subst h1
    rfl
  · by_cases h2 : (pyStrip s).length < 50
    · simp [h1, h2, Nat.not_le.mpr h2]
    · simp [h1, h2, Nat.le_of_not_lt h2]

/-- **C7**: for every input text, the profile's capped sequences never
exceed their caps: at most 50 skills, 10 experience entries, 5 education
entries. -/
theorem c7_caps (t : String) :
    (format_resume t).skills.length ≤ 50 ∧
      (format_resume t).experience.length ≤ 10 ∧
      (format_resume t).education.length ≤ 5 := by
  refine ⟨?_, ?_, ?_⟩
  · simp only [format_resume]
    rcases find_section (parse_sections t) skillsSectionKeys with _ | ⟨v | xs⟩
    · simp
    · by_cases hv : v = "" <;> simp [hv, extract_skills_length_le]
    · simp
  · simp only [format_resume]
    rcases find_section (parse_sections t) expSectionKeys with _ | ⟨v | xs⟩
    · simp
    · by_cases hv : v = "" <;> simp [hv, extract_experience_length_le]
    · simp
  · simp only [format_resume]
    rcases find_section (parse_sections t) eduSectionKeys with _ | ⟨v | xs⟩
    · simp
    · by_cases hv : v = "" <;> simp [hv, extract_education_length_le]
    · simp

/-- **C8**: the summary extractor joins the section's non-bullet,
non-blank lines with single spaces; beyond 500 characters the joined text
is cut to exactly its first 500 characters plus the `"..."` marker, and at
500 or fewer characters it is returned unchanged. -/
theorem c8_summary (s : String) :
    extract_summary s =
      (if 500 < (specSummaryJoin s).length
        then strTake (specSummaryJoin s) 500 ++ "..."
        else specSummaryJoin s) := by
  have h : ((splitLines s).filter
        (fun l => pyStrip l ≠ "" && !strStartsWith (pyStrip l) "•")).map pyStrip =
      ((splitLines s).map pyStrip).filter (fun l => l ≠ "" && !strStartsWith l "•") := by
    rw [List.filter_map]
    rfl
  rw [extract_summary, specSummaryJoin, h]
  by_cases hl : 500 <
      (joinSep " "
        (((splitLines s).map pyStrip).filter
          (fun l => l ≠ "" && !strStartsWith l "•"))).length <;>
    simp [hl]

/-- **C9**: the pipeline is deterministic — classification followed by
formatting, run twice on the same input, yields identical profiles; both
components of `pipelineTwice` are the same pure function of the input. -/
theorem c9_deterministic (t : String) :
    (pipelineTwice t).1 = (pipelineTwice t).2 := rfl

/-- **C10**: every line of the skills section whose stripped form begins
with `•` or `-` contributes no items, so a section of only bullet-prefixed
lines yields an empty skill list. -/
theorem c10_bullet_lines_skipped (t : String)
    (h : ∀ l ∈ splitLines t, pyStrip l = "" ∨
      strStartsWith (pyStrip l) "•" = true ∨
      strStartsWith (pyStrip l) "-" = true) :
    extract_skills t = [] := by
  have hc : ∀ l ∈ splitLines t, collectSkillsLine l = [] := by
    intro l hl
    rcases h l hl with h0 | h0 | h0 <;> · rw [collectSkillsLine]; simp [h0]
  have hz : (splitLines t).flatMap collectSkillsLine = [] :=
    List.flatMap_eq_nil_iff.mpr hc
  rw [extract_skills, hz]
  rfl

/-- **C10 witness**: a concrete all-bullet skills section yields `[]`. -/
theorem c10_bullet_lines_skipped_witness :
    extract_skills "• Python\n• Go" = [] :=
  c10_bullet_lines_skipped "• Python\n• Go" (by decide)

/-- **C2** (amended): the date pattern the experience extractor uses to
split title from duration finds a match on every line accepted by the
shared `is_date_range` predicate, but the education extractor's split
pattern is not equivalent to it: a numeric year range such as
`"2020 - 2024"` is accepted by `is_date_range` yet produces no match for
the education pattern. -/
theorem c2_date_detection :
    (∀ s : String, is_date_range s = true → (reFindStr expDatePat s).isSome = true) ∧
      (is_date_range "McMaster University 2020 - 2024" = true ∧
        reFindStr eduDatePat "McMaster University 2020 - 2024" = none) := by
  constructor
  · intro s h
    rw [is_date_range] at h
    simp only [List.any_cons, List.any_nil, Bool.or_eq_true, Bool.or_false] at h
    rw [reFindStr]
    rcases h with h | h | h <;> rw [reFindStr] at h
    · exact reFindAux_mono (fun pv cs => reMatch_datePat1_exp) none 0 s.toList h
    · exact reFindAux_mono (fun pv cs => reMatch_datePat2_exp) none 0 s.toList h
    · exact reFindAux_mono (fun pv cs => reMatch_datePat3_exp) none 0 s.toList h
  · exact ⟨by decide, by decide⟩

/-- **C2 witness**: the universal half of `c2_date_detection` applied at
the concrete line `"2020 - 2024"`. -/
theorem c2_date_detection_witness :
    (reFindStr expDatePat "2020 - 2024").isSome = true :=
  c2_date_detection.1 "2020 - 2024" (by decide)

/-- **C2 counterexample**: on `"McMaster University 2020 - 2024"` the
shared predicate and the experience pattern detect a date, but the
education extractor's split pattern does not — the three implementations
do not detect dates on the same lines. -/
theorem c2_counterexample :
    is_date_range "McMaster University 2020 - 2024" = true ∧
      (reFindStr expDatePat "McMaster University 2020 - 2024").isSome = true ∧
      reFindStr eduDatePat "McMaster University 2020 - 2024" = none := by
  exact ⟨by decide, by decide, by decide⟩

/-- **C3** (amended): name extraction scans exactly the first 5 raw lines
(blank lines count toward the five): the name is the first of those lines
whose stripped form is non-blank, not email-like, not URL-like, not a
date range, and has 2–4 words each starting with an uppercase letter;
when none qualifies the name stays unset (extraction is total). -/
theorem c3_name_scan (t : String) :
    (format_resume t).name =
      (((splitLines t).take 5).map pyStrip).find? nameQual := by
  simp only [format_resume]
  exact nameLoop_eq_find _

/-- Running the segmenter loop through a block of non-header lines simply
accumulates the block's stripped non-blank lines onto the open section. -/
theorem parseLoop_append_block (b : List String) :
    ∀ (rest : List String) (cs : String) (acc : List String) (d : Sections),
      (∀ l ∈ b, pyStrip l ≠ "" → headerOf (pyStrip l) = none) →
      parseLoop (b ++ rest) (some cs) acc d =
        parseLoop rest (some cs) (acc ++ blockClean b) d := by
  induction b with
  | nil =>
    intro rest cs acc d _
    simp [blockClean]
  | cons l bl ih =>
    intro rest cs acc d hb
    have hbl : ∀ x ∈ bl, pyStrip x ≠ "" → headerOf (pyStrip x) = none :=
      fun x hx => hb x (List.mem_cons_of_mem _ hx)
    by_cases h0 : pyStrip l = ""
    · rw [List.cons_append, parseLoop]
      simp only [h0, if_pos]
      rw [ih rest cs acc d hbl]
      have : blockClean (l :: bl) = blockClean bl := by
        simp [blockClean, h0]
      rw [this]
    · have hh := hb l (List.mem_cons_self l bl) h0
      rw [List.cons_append, parseLoop]
      simp only [h0, hh, if_neg h0]
      rw [ih rest cs (acc ++ [pyStrip l]) d hbl]
      have : blockClean (l :: bl) = pyStrip l :: blockClean bl := by
        simp [blockClean, h0]
      rw [this, List.append_assoc]
      rfl

/-- **C1** (amended): when the same canonical section key is matched by a
header line twice — a header line of key `ck`, a block of non-header
lines, the same header again, a second block — the resulting map contains
exactly one entry for that key, but its content is only the second
block's stripped non-blank lines: the repeated header starts the section
afresh and the lines captured before it are overwritten, not accumulated. -/
theorem c1_repeated_header_overwrites (hl ck : String) (b1 b2 : List String)
    (hk1 : pyStrip hl ≠ "") (hk2 : headerOf (pyStrip hl) = some ck)
    (hb1 : ∀ l ∈ b1, pyStrip l ≠ "" → headerOf (pyStrip l) = none)
    (hb2 : ∀ l ∈ b2, pyStrip l ≠ "" → headerOf (pyStrip l) = none) :
    parseLines (hl :: b1 ++ hl :: b2) =
      [(ck, SVal.str (joinSep "\n" (blockClean b2)))] := by
  rw [parseLines, List.cons_append, parseLoop]
  simp only [hk2, if_neg hk1]
  rw [parseLoop_append_block b1 (hl :: b2) ck [] [] hb1]
  rw [parseLoop]
  simp only [hk2, if_neg hk1]
  rw [← List.append_nil b2, parseLoop_append_block b2 [] ck [] _ hb2, parseLoop]
  simp [dictInsert]

/-- **C1 witness**: `c1_repeated_header_overwrites` at a concrete
repeated `skills` header — only the second block survives. -/
theorem c1_repeated_header_overwrites_witness :
    parseLines ["skills", "Python", "skills", "Java"] =
      [("skills", SVal.str "Java")] := by
  have h := c1_repeated_header_overwrites "skills" "skills" ["Python"] ["Java"]
    (by decide) (by decide) (by decide) (by decide)
  exact h.trans (by decide)

/-- **C1 counterexample**: on `"skills\nPython\nskills\nJava"` the map
binds `skills` to `"Java"` alone — the lines captured under that key
before the repeated header (`"Python"`) are lost, so the content is not
the accumulation of the two blocks. -/
theorem c1_counterexample :
    dictGet (parse_sections "skills\nPython\nskills\nJava") "skills" =
      some (SVal.str "Java") ∧ ("Java" : String) ≠ "Python\nJava" :=
  ⟨by decide, by decide⟩

/-- **C3 counterexample**: with five blank lines before it, a qualifying
line that is among the first 5 *non-blank* lines (here the only non-blank
line) is not scanned: the claim's promised name is missed. -/
theorem c3_counterexample :
    nameQual "John Smith" = true ∧
      "John Smith" ∈
        (((splitLines "\n\n\n\n\nJohn Smith").filter
          (fun l => pyStrip l ≠ "")).take 5) ∧
      (format_resume "\n\n\n\n\nJohn Smith").name = none := by
  exact ⟨by decide, by decide, by decide⟩

end ResumeParser
